import Mathlib

/-!
Verification development for the Student Finance Tracker repository.

The definitions below are a shallow embedding of the JavaScript source:
`scripts/validators.js` (field validation and the rule-engine regexes),
`scripts/storage.js` (default settings), and `state.js` (the AppState store
with its derived filtered and sorted view).

Modelling conventions, stated once here:
- JavaScript numbers are modelled as exact rationals (`Q := Rat`); a value
  that can be `NaN` is modelled as `Option Q` with `none` standing for `NaN`.
  All amounts handled by the store come from the validators, which only admit
  decimals with at most two fractional digits, a range on which rational and
  IEEE double arithmetic order values identically.
- Character classes are modelled for the ASCII range, which is the range the
  validator regexes themselves are written over.
- Current time is threaded as an explicit parameter (a calendar-date triple
  for the validators, a day number for the trend), since the source reads the
  clock through collaborator calls.
- Methods that mutate the singleton store are functions from `AppState` to
  `AppState` (paired with the returned value); a thrown `Error(msg)` is
  modelled as `Except.error msg` together with the state at the throw point.
-/

abbrev Q := Rat

/-- Character class of the JavaScript regex token for whitespace, restricted
to the ASCII whitespace characters. -/
def jsIsSpace (c : Char) : Bool :=
  c = ' ' ∨ c = '\t' ∨ c = '\n' ∨ c = '\r' ∨ c = '\x0b' ∨ c = '\x0c'

/-- The class [A-Za-z] used by the category regex. -/
def asciiLetter (c : Char) : Bool :=
  ('A' ≤ c ∧ c ≤ 'Z') ∨ ('a' ≤ c ∧ c ≤ 'z')

/-- The JavaScript word-character class [A-Za-z0-9_]. -/
def isWordChar (c : Char) : Bool :=
  asciiLetter c ∨ c.isDigit ∨ c = '_'

/-- Numeric value of a digit string, used by the parseFloat model. -/
def digitsVal (ds : List Char) : Q :=
  ds.foldl (fun a c => a * 10 + (((c.toNat - '0'.toNat : Nat)) : Q)) 0

/-- Model of JavaScript parseFloat on a character list: optional sign, then
digits with an optional decimal point; trailing characters are ignored and
`none` (NaN) is returned when no digit was consumed.  Exponent forms and the
Infinity literal are outside the fragment used by this program. -/
def parseFloatL (cs : List Char) : Option Q :=
  let stripped : List Char :=
    match cs with
    | c :: r => if c = '-' ∨ c = '+' then r else c :: r
    | [] => []
  let sgn : Q :=
    match cs with
    | c :: _ => if c = '-' then -1 else 1
    | [] => 1
  let intDs := stripped.takeWhile Char.isDigit
  let rest := stripped.dropWhile Char.isDigit
  let fracDs :=
    match rest with
    | '.' :: r => r.takeWhile Char.isDigit
    | _ => []
  if intDs.isEmpty && fracDs.isEmpty then none
  else some (sgn * (digitsVal intDs + digitsVal fracDs / (10 : Q) ^ fracDs.length))

/-- JavaScript parseFloat (leading whitespace is skipped). -/
def parseFloat (s : String) : Option Q :=
  parseFloatL (s.data.dropWhile jsIsSpace)

/-- The anchored description regex: first and last characters are
non-whitespace and the characters between them are matched by the dot class,
which excludes line terminators. -/
def descPattern (s : String) : Bool :=
  match s.data with
  | [] => false
  | c :: rest =>
      !jsIsSpace c &&
      (rest.isEmpty ||
        (!jsIsSpace (rest.getLastD ' ') &&
          rest.dropLast.all (fun x => x ≠ '\n' ∧ x ≠ '\r')))

/-- The double-whitespace test: some two adjacent whitespace characters. -/
def hasAdjSpacesL : List Char → Bool
  | a :: b :: t => (jsIsSpace a && jsIsSpace b) || hasAdjSpacesL (b :: t)
  | _ => false

def hasDoubleSpaces (s : String) : Bool := hasAdjSpacesL s.data

/-- One pass of the whitespace-collapsing replace: every maximal run of
whitespace becomes a single space.  The Boolean flag records whether the
previous character was inside a whitespace run. -/
def collapseGo : List Char → Bool → List Char
  | [], _ => []
  | c :: t, inRun =>
      if jsIsSpace c then
        (if inRun then collapseGo t true else ' ' :: collapseGo t true)
      else c :: collapseGo t false

/-- The replace collapsing whitespace runs to single spaces. -/
def collapseWs (s : String) : String := String.mk (collapseGo s.data false)

/-- Integer-part shape of the amount regex: the single digit 0, or a first
digit 1 to 9 followed by digits. -/
def intPartOk (ip : List Char) : Bool :=
  match ip with
  | [] => false
  | ['0'] => true
  | c :: _ => c ≠ '0'

/-- The anchored amount regex: integer part with no leading zero, optionally
a decimal point and one or two fractional digits. -/
def amountPatternL (cs : List Char) : Bool :=
  let ip := cs.takeWhile Char.isDigit
  let rest := cs.dropWhile Char.isDigit
  intPartOk ip &&
    (match rest with
     | [] => true
     | '.' :: fr => decide (1 ≤ fr.length) && decide (fr.length ≤ 2) && fr.all Char.isDigit
     | _ => false)

def amountPattern (s : String) : Bool := amountPatternL s.data

def twoDigitVal (a b : Char) : Nat := (a.toNat - 48) * 10 + (b.toNat - 48)

def fourDigitVal (a b c d : Char) : Nat :=
  ((a.toNat - 48) * 10 + (b.toNat - 48)) * 100 + twoDigitVal c d

/-- Extract the year, month and day fields of a string of the exact shape
four digits, dash, two digits, dash, two digits. -/
def dateFields (s : String) : Option (Nat × Nat × Nat) :=
  match s.data with
  | [y1, y2, y3, y4, '-', m1, m2, '-', d1, d2] =>
      if [y1, y2, y3, y4, m1, m2, d1, d2].all Char.isDigit then
        some (fourDigitVal y1 y2 y3 y4, twoDigitVal m1 m2, twoDigitVal d1 d2)
      else none
  | _ => false |> fun _ => none

/-- The anchored date regex: shape and the month range 01 to 12 and day range
01 to 31 that its alternations encode. -/
def datePattern (s : String) : Bool :=
  match dateFields s with
  | some (_, m, d) => decide (1 ≤ m) && decide (m ≤ 12) && decide (1 ≤ d) && decide (d ≤ 31)
  | none => false

def isLeapYear (y : Nat) : Bool := y % 4 = 0 && (y % 100 ≠ 0 || y % 400 = 0)

def daysInMonth (y m : Nat) : Nat :=
  if m = 2 then (if isLeapYear y then 29 else 28)
  else if m = 4 ∨ m = 6 ∨ m = 9 ∨ m = 11 then 30 else 31

/-- Order-isomorphic key for a calendar-date triple (components stay below
100 for the month and day, so this encodes lexicographic order). -/
def dateTripleKey : Nat × Nat × Nat → Nat
  | (y, m, d) => y * 10000 + m * 100 + d

/-- The category regex: letter groups separated by single spaces or hyphens.
The flag records whether a letter has been read since the last separator, so
the string must start with a letter, must not contain adjacent separators,
and must end with a letter. -/
def catScan : List Char → Bool → Bool
  | [], afterLetter => afterLetter
  | c :: t, afterLetter =>
      if asciiLetter c then catScan t true
      else if c = ' ' ∨ c = '-' then afterLetter && catScan t false
      else false

def catPattern (s : String) : Bool := catScan s.data false

/-- The category normalisation: first character upper-cased, the rest
lower-cased (ASCII, which is all the category regex admits). -/
def capJs (s : String) : String :=
  match s.data with
  | [] => ""
  | c :: t => String.mk (c.toUpper :: t.map Char.toLower)

/-- Lower-casing of a string (character-wise, matching toLowerCase and the
case folding of the regex i flag on the ASCII range). -/
def lowerStr (s : String) : String := String.mk (s.data.map Char.toLower)

/-- Substring occurrence test at position i. -/
def matchesAtL (lit s : List Char) (i : Nat) : Bool :=
  decide ((s.drop i).take lit.length = lit)

/-- Word boundary just before position i of cs. -/
def boundaryAt (cs : List Char) (i : Nat) : Bool :=
  decide (i = 0) || !isWordChar (cs.getD (i - 1) ' ')

/-- Word boundary just after position i of cs (i is the index one past the
last character of the token under test). -/
def boundaryAfter (cs : List Char) (i : Nat) : Bool :=
  decide (i = cs.length) || !isWordChar (cs.getD i ' ')

/-- One candidate match of the duplicate-word regex: a word of length k at a
boundary at position i, a whitespace run of length m, and the same word again
followed by a boundary.  Case folding has already been applied to cs. -/
def dupWordAt (cs : List Char) (i k m : Nat) : Bool :=
  let w := (cs.drop i).take k
  decide (1 ≤ k) && decide (w.length = k) && w.all isWordChar && boundaryAt cs i &&
  (let ws := (cs.drop (i + k)).take m
   decide (1 ≤ m) && decide (ws.length = m) && ws.all jsIsSpace) &&
  matchesAtL w cs (i + k + m) && boundaryAfter cs (i + k + m + k)

/-- The duplicate-word regex with back-reference, case-insensitive: some word
immediately repeated after whitespace. -/
def hasDuplicateWords (s : String) : Bool :=
  let cs := (lowerStr s).data
  (List.range (cs.length + 1)).any fun i =>
    (List.range (cs.length + 1)).any fun k =>
      (List.range (cs.length + 1)).any fun m => dupWordAt cs i k m

/-- Occurrence of a whole word (boundaries on both sides) anywhere in cs. -/
def wordOccurs (cs w : List Char) : Bool :=
  (List.range (cs.length + 1)).any fun i =>
    matchesAtL w cs i && boundaryAt cs i && boundaryAfter cs (i + w.length)

/-- The beverage lookahead regex, case-insensitive: the test succeeds exactly
when one of the keywords occurs as a whole word (the lookahead prefix can be
empty, so scanning all start positions reduces to word occurrence). -/
def isBeverageTransaction (s : String) : Bool :=
  let cs := (lowerStr s).data
  ["coffee", "tea", "soda", "juice", "water"].any fun kw => wordOccurs cs kw.data

/-- The cents regex: a dot, two digits, then a word boundary. -/
def hasCentsL : List Char → Bool
  | '.' :: a :: b :: rest =>
      (a.isDigit && b.isDigit &&
        (match rest with | [] => true | c :: _ => !isWordChar c)) ||
      hasCentsL (a :: b :: rest)
  | _ :: rest => hasCentsL rest
  | [] => false

def hasCents (s : String) : Bool := hasCentsL s.data

/-- A JavaScript value as stored in the dynamically typed cleaned record:
either a string or a number (`none` is NaN). -/
inductive JsVal where
  | str (s : String)
  | num (v : Option Q)
deriving DecidableEq, Repr

structure FormData where
  description : String
  amount : String
  category : String
  date : String
deriving DecidableEq, Repr

structure DescResult where
  valid : Bool
  message : String
  cleaned : Option String
deriving DecidableEq, Repr

/-- validateDescription from validators.js. -/
def validateDescription (description : String) : DescResult :=
  if !descPattern description then
    ⟨false, "Description cannot start or end with spaces", none⟩
  else if hasDoubleSpaces description then
    ⟨false, "Description cannot contain double spaces", none⟩
  else
    ⟨true, "", some (collapseWs description)⟩

structure AmountResult where
  valid : Bool
  message : String
  value : Option Q
deriving DecidableEq, Repr

/-- Comparison against a possibly-NaN number: NaN compares false. -/
def jsGtNum (v : Option Q) (x : Q) : Bool :=
  match v with
  | some q => decide (q > x)
  | none => false

/-- validateAmount from validators.js. -/
def validateAmount (amount : String) : AmountResult :=
  let numValue := parseFloat amount
  if !amountPattern amount then
    ⟨false, "Amount must be a positive number with up to 2 decimals (e.g., 10, 10.50)", none⟩
  else if jsGtNum numValue 1000000 then
    ⟨false, "Amount cannot exceed 1,000,000", none⟩
  else
    ⟨true, "", numValue⟩

structure DateResult where
  valid : Bool
  message : String
  warning : Option String
deriving DecidableEq, Repr

/-- validateDate from validators.js.  The round-trip check through the Date
constructor is the real-calendar-date test together with the constructor
quirk that years 0 to 99 are remapped (and hence never round-trip); the
future-date comparison is against the supplied current date at midnight. -/
def validateDate (today : Nat × Nat × Nat) (date : String) : DateResult :=
  if !datePattern date then
    ⟨false, "Date must be in YYYY-MM-DD format", none⟩
  else
    match dateFields date with
    | none => ⟨false, "Invalid date", none⟩
    | some (y, m, d) =>
        if !(decide (100 ≤ y) && decide (d ≤ daysInMonth y m)) then
          ⟨false, "Invalid date", none⟩
        else if dateTripleKey (y, m, d) > dateTripleKey today then
          ⟨true, "", some "Future date detected"⟩
        else
          ⟨true, "", none⟩

structure CatResult where
  valid : Bool
  message : String
  cleaned : Option String
deriving DecidableEq, Repr

/-- validateCategory from validators.js. -/
def validateCategory (category : String) : CatResult :=
  if !catPattern category then
    ⟨false, "Category must contain only letters, spaces, and hyphens", none⟩
  else if category.length < 2 then
    ⟨false, "Category must be at least 2 characters long", none⟩
  else
    ⟨true, "", some (capJs category)⟩

/-- The JavaScript or-else on a string field: undefined or the empty string
falls back. -/
def jsOrStr (v : Option String) (fb : String) : String :=
  match v with
  | some s => if s = "" then fb else s
  | none => fb

/-- The JavaScript or-else on a number field: undefined, NaN and zero fall
back (all are falsy). -/
def jsOrNum (v : Option Q) (fb : Option Q) : Option Q :=
  match v with
  | some q => if q = 0 then fb else some q
  | none => fb

structure TValidation where
  isValid : Bool
  errDescription : Option String
  errAmount : Option String
  errDate : Option String
  errCategory : Option String
  warnDescription : Option String
  warnAmount : Option String
  warnDate : Option String
  cleanedDescription : String
  cleanedAmount : JsVal
  cleanedDate : String
  cleanedCategory : String
deriving DecidableEq, Repr

/-- validateTransaction from validators.js: the four field validations, the
advisory warnings, and the cleaned record with its or-else fallbacks. -/
def validateTransaction (today : Nat × Nat × Nat) (formData : FormData) : TValidation :=
  let descValidation := validateDescription formData.description
  let amountValidation := validateAmount formData.amount
  let dateValidation := validateDate today formData.date
  let catValidation := validateCategory formData.category
  { isValid := descValidation.valid && amountValidation.valid &&
      dateValidation.valid && catValidation.valid
    errDescription := if descValidation.valid then none else some descValidation.message
    errAmount := if amountValidation.valid then none else some amountValidation.message
    errDate := if dateValidation.valid then none else some dateValidation.message
    errCategory := if catValidation.valid then none else some catValidation.message
    warnDescription :=
      if formData.description ≠ "" then
        (if isBeverageTransaction formData.description then some "Beverage purchase detected"
         else if hasDuplicateWords formData.description then some "Duplicate words detected"
         else none)
      else none
    warnAmount :=
      if formData.amount ≠ "" then
        (if hasCents formData.amount then some "Amount includes cents" else none)
      else none
    warnDate := if dateValidation.valid then dateValidation.warning else none
    cleanedDescription := jsOrStr descValidation.cleaned formData.description
    cleanedAmount := JsVal.num (jsOrNum amountValidation.value (parseFloat formData.amount))
    cleanedDate := formData.date
    cleanedCategory := jsOrStr catValidation.cleaned formData.category }

/-- Model of a compiled JavaScript RegExp restricted to the pattern fragment
needed here: literal characters plus grouping parentheses.  The global flag
is always set by the store, so the matcher carries the mutable scan position
lastIndex; the ignoreCase field models the i flag. -/
structure GRegex where
  literal : String
  ignoreCase : Bool
  lastIndex : Nat
deriving DecidableEq, Repr

/-- The value held in currentSearch.regex: null, a compiled matcher, or the
object with an error field stored when compilation threw. -/
inductive SearchRegex where
  | null
  | re (r : GRegex)
  | err (message : String)
deriving DecidableEq, Repr

/-- Compilation validity for the restricted pattern language: parentheses
must balance (an unmatched parenthesis makes the RegExp constructor throw). -/
def balancedParens : List Char → Nat → Bool
  | [], depth => decide (depth = 0)
  | '(' :: rest, depth => balancedParens rest (depth + 1)
  | ')' :: rest, depth => decide (0 < depth) && balancedParens rest (depth - 1)
  | _ :: rest, depth => balancedParens rest depth

def patternValid (p : String) : Bool := balancedParens p.data 0

/-- Group parentheses are transparent for matching a literal body. -/
def stripParens (p : String) : String :=
  String.mk (p.data.filter (fun c => c ≠ '(' ∧ c ≠ ')'))

def foldCase (ignoreCase : Bool) (s : String) : String :=
  if ignoreCase then lowerStr s else s

/-- First occurrence of lit in s at a position at or after i. -/
def findFrom (lit s : List Char) (i : Nat) : Option Nat :=
  (List.range (s.length + 1)).find? fun j => decide (i ≤ j) && matchesAtL lit s j

/-- regex.test(s) for a global-flag matcher: scan from lastIndex; on success
advance lastIndex past the match, on failure reset it to zero.  This is the
stateful semantics of RegExp.prototype.test with the g flag. -/
def gtest (r : GRegex) (s : String) : Bool × GRegex :=
  let lit := (foldCase r.ignoreCase r.literal).data
  let hay := (foldCase r.ignoreCase s).data
  match findFrom lit hay r.lastIndex with
  | some j => (true, { r with lastIndex := j + lit.length })
  | none => (false, { r with lastIndex := 0 })

structure Transaction where
  id : String
  description : String
  amount : Q
  category : String
  date : String
  createdAt : String
  updatedAt : String
deriving DecidableEq, Repr

def defaultTx : Transaction := ⟨"", "", 0, "", "", "", ""⟩

/-- JavaScript number-to-string for the amounts this program stores (at most
two decimals): integer part, then the fractional digits with trailing zeros
dropped, matching the shortest-representation rule on this range. -/
def qToString (q : Q) : String :=
  let sign := if q < 0 then "-" else ""
  let n : Nat := (Rat.floor ((if q < 0 then -q else q) * 100)).toNat
  let ip := n / 100
  let fr := n % 100
  sign ++
    (if fr = 0 then toString ip
     else if fr % 10 = 0 then toString ip ++ "." ++ toString (fr / 10)
     else toString ip ++ "." ++ (if fr < 10 then "0" ++ toString fr else toString fr))

/-- The searchable string built by applySearch: description, amount,
category and date, space-joined in that order. -/
def searchable (t : Transaction) : String :=
  t.description ++ " " ++ qToString t.amount ++ " " ++ t.category ++ " " ++ t.date

structure SearchState where
  pattern : String
  regex : SearchRegex
  caseSensitive : Bool
deriving DecidableEq, Repr

structure Settings where
  baseCurrency : String
  conversionRates : List (String × Q)
  monthlyBudget : Q
  categories : List String
deriving DecidableEq, Repr

/-- DEFAULT_SETTINGS from storage.js. -/
def defaultSettings : Settings :=
  ⟨"USD", [("EUR", 85/100), ("GBP", 75/100)], 500,
   ["Food", "Books", "Transport", "Entertainment", "Fees", "Other"]⟩

/-- The AppState store.  Listeners are external callbacks, so only their
observable effect is modelled: notifyCount counts the notify() dispatches,
each of which invokes every registered listener once. -/
structure AppState where
  transactions : List Transaction
  settings : Settings
  filteredTransactions : List Transaction
  currentSearch : SearchState
  currentSort : String
  editingId : Option String
  notifyCount : Nat
deriving DecidableEq, Repr

/-- notify(): dispatch to all listeners. -/
def notify (st : AppState) : AppState := { st with notifyCount := st.notifyCount + 1 }

/-- Array.prototype.filter with the stateful regex test threaded through the
per-element calls in order, exactly as the source reuses the one matcher
object across the successive tests. -/
def jsFilterTest (r : GRegex) : List Transaction → List Transaction × GRegex
  | [] => ([], r)
  | t :: ts =>
      let p := gtest r (searchable t)
      let rest := jsFilterTest p.2 ts
      (if p.1 then t :: rest.1 else rest.1, rest.2)

/-- applySearch: no matcher or an error marker leaves the view as a copy of
the canonical list; otherwise filter by the stateful test.  The matcher is
the same object held in currentSearch, so its updated scan position is
written back. -/
def applySearch (st : AppState) : AppState :=
  match st.currentSearch.regex with
  | SearchRegex.null => { st with filteredTransactions := st.transactions }
  | SearchRegex.err _ => { st with filteredTransactions := st.transactions }
  | SearchRegex.re r =>
      let p := jsFilterTest r st.transactions
      { st with
        filteredTransactions := p.1,
        currentSearch := { st.currentSearch with regex := SearchRegex.re p.2 } }

/-- String.prototype.split on a dash. -/
def splitDashGo : List Char → List Char → List String
  | [], acc => [String.mk acc.reverse]
  | '-' :: t, acc => String.mk acc.reverse :: splitDashGo t []
  | c :: t, acc => splitDashGo t (c :: acc)

def splitDash (s : String) : List String := splitDashGo s.data []

/-- The value of new Date(s) for sorting: defined exactly for strings of the
ISO shape whose fields name a real calendar day, and order-isomorphic to the
chronological order new Date produces; `none` is an invalid date (NaN). -/
def dateKey (s : String) : Option Q :=
  match dateFields s with
  | some (y, m, d) =>
      if 1 ≤ m ∧ m ≤ 12 ∧ 1 ≤ d ∧ d ≤ daysInMonth y m then
        some ((dateTripleKey (y, m, d) : Nat) : Q)
      else none
  | none => none

/-- Subtraction of possibly-NaN numbers. -/
def jsSubOpt (a b : Option Q) : Option Q :=
  match a, b with
  | some x, some y => some (x - y)
  | _, _ => none

/-- localeCompare modelled as code-point string comparison. -/
def localeCmp (a b : String) : Q :=
  match compare a b with
  | Ordering.lt => -1
  | Ordering.eq => 0
  | Ordering.gt => 1

/-- Negate the comparison unless the direction component is asc. -/
def applyDir (sortKey : String) (c : Option Q) : Option Q :=
  if (splitDash sortKey)[1]? = some "asc" then c else c.map (fun x => -x)

/-- The sort comparator from applySort: switch on the field component of the
sort key; unrecognised fields return zero directly, without the direction
flip. -/
def jsCompare (sortKey : String) (a b : Transaction) : Option Q :=
  let field := (splitDash sortKey).headD ""
  if field = "date" then applyDir sortKey (jsSubOpt (dateKey a.date) (dateKey b.date))
  else if field = "amount" then applyDir sortKey (some (a.amount - b.amount))
  else if field = "description" then
    applyDir sortKey (some (localeCmp a.description b.description))
  else some 0

/-- The not-after relation induced by the comparator, as consumed by a stable
sort: a may stay before b when the comparator is nonpositive.  A NaN
comparison is treated as zero, the benign reading of the unspecified
engine behaviour, reachable only for dates no validator admits. -/
def sortLe (sortKey : String) (a b : Transaction) : Bool :=
  decide ((jsCompare sortKey a b).getD 0 ≤ 0)

/-- Stable insertion of x into a sorted list: x passes over every earlier
element it must follow and stops before the first element it may precede. -/
def insertLe (le : Transaction → Transaction → Bool) (x : Transaction) :
    List Transaction → List Transaction
  | [] => [x]
  | y :: t => if le x y then x :: y :: t else y :: insertLe le x t

/-- Array.prototype.sort modelled as a stable sort by the comparator
relation (the ECMAScript sort is required to be stable, and for a consistent
comparator every stable sort produces the same list). -/
def jsSort (le : Transaction → Transaction → Bool) : List Transaction → List Transaction
  | [] => []
  | x :: t => insertLe le x (jsSort le t)

/-- applySort: sort the derived view in place by the active sort key. -/
def applySort (st : AppState) : AppState :=
  { st with filteredTransactions := jsSort (sortLe st.currentSort) st.filteredTransactions }

/-- applySearchAndSort. -/
def applySearchAndSort (st : AppState) : AppState := applySort (applySearch st)

/-- setSearch(pattern, caseSensitive): record the raw pattern and flag, then
compile (an empty pattern compiles to null, a bad pattern to the error
marker), then recompute the view.  The flags are g or gi, so the matcher is
global and case sensitivity follows the flag. -/
def setSearch (pattern : String) (caseSensitive : Bool) (st : AppState) : AppState :=
  let s1 := { st with currentSearch :=
    { st.currentSearch with pattern := pattern, caseSensitive := caseSensitive } }
  let newRegex : SearchRegex :=
    if pattern = "" then SearchRegex.null
    else if patternValid pattern then
      SearchRegex.re ⟨stripParens pattern, !caseSensitive, 0⟩
    else SearchRegex.err "Invalid regular expression"
  applySearchAndSort { s1 with currentSearch := { s1.currentSearch with regex := newRegex } }

/-- setSort(sortBy). -/
def setSort (sortBy : String) (st : AppState) : AppState :=
  applySearchAndSort { st with currentSort := sortBy }

/-- getTransaction(id). -/
def getTransaction (id : String) (st : AppState) : Option Transaction :=
  st.transactions.find? fun t => t.id == id

/-- Coerce the dynamically typed cleaned amount to the number the new record
stores; on the valid path it is always a finite number (see the lemma
cleanedAmount of validateTransaction below), so the zero default is never
taken by addTransaction or updateTransaction. -/
def jsNumOf (v : JsVal) : Q :=
  match v with
  | JsVal.num (some q) => q
  | _ => 0

/-- addTransaction(formData): validate, throw on invalid data, otherwise
build the record with a fresh id and equal timestamps, prepend, recompute the
view, persist (a collaborator call with no store effect), notify, return. -/
def addTransaction (freshId now : String) (today : Nat × Nat × Nat)
    (formData : FormData) (st : AppState) : AppState × Except String Transaction :=
  let validation := validateTransaction today formData
  if !validation.isValid then (st, Except.error "Invalid transaction data")
  else
    let transaction : Transaction :=
      { id := freshId
        description := validation.cleanedDescription
        amount := jsNumOf validation.cleanedAmount
        category := validation.cleanedCategory
        date := validation.cleanedDate
        createdAt := now
        updatedAt := now }
    let st1 := { st with transactions := transaction :: st.transactions }
    (notify (applySearchAndSort st1), Except.ok transaction)

/-- Array.prototype.findIndex on the id, with the absent case as none. -/
def findIndexJs (id : String) : List Transaction → Option Nat
  | [] => none
  | t :: ts => if t.id == id then some 0 else (findIndexJs id ts).map (· + 1)

/-- updateTransaction(id, formData): validate, throw on invalid data, throw
when the id is absent, otherwise replace the record in place keeping id and
createdAt, stamp updatedAt, recompute, persist, notify, return. -/
def updateTransaction (now : String) (today : Nat × Nat × Nat) (id : String)
    (formData : FormData) (st : AppState) : AppState × Except String Transaction :=
  let validation := validateTransaction today formData
  if !validation.isValid then (st, Except.error "Invalid transaction data")
  else
    match findIndexJs id st.transactions with
    | none => (st, Except.error "Transaction not found")
    | some index =>
        let old := st.transactions.getD index defaultTx
        let updatedTransaction : Transaction :=
          { old with
            description := validation.cleanedDescription
            amount := jsNumOf validation.cleanedAmount
            category := validation.cleanedCategory
            date := validation.cleanedDate
            updatedAt := now }
        let st1 := { st with transactions := st.transactions.set index updatedTransaction }
        (notify (applySearchAndSort st1), Except.ok updatedTransaction)

/-- deleteTransaction(id): the blocking confirmation collaborator is the
Boolean parameter; declining returns false before any mutation. -/
def deleteTransaction (userConfirms : Bool) (id : String) (st : AppState) :
    AppState × Bool :=
  if !userConfirms then (st, false)
  else
    let st1 := { st with transactions := st.transactions.filter (fun t => t.id != id) }
    (notify (applySearchAndSort st1), true)

/-- Days-to-civil conversion (the standard civil-from-days computation) for a
nonnegative day number counted from 1970-01-01. -/
def civilOfDays (n : Nat) : Nat × Nat × Nat :=
  let z := n + 719468
  let era := z / 146097
  let doe := z % 146097
  let yoe := (doe - doe / 1460 + doe / 36524 - doe / 146096) / 365
  let y := yoe + era * 400
  let doy := doe - (365 * yoe + yoe / 4 - yoe / 100)
  let mp := (5 * doy + 2) / 153
  let d := doy - (153 * mp + 2) / 5 + 1
  let m := if mp < 10 then mp + 3 else mp - 9
  (if m ≤ 2 then y + 1 else y, m, d)

def pad2 (n : Nat) : String := if n < 10 then "0" ++ toString n else toString n

def pad4 (n : Nat) : String :=
  if n < 10 then "000" ++ toString n
  else if n < 100 then "00" ++ toString n
  else if n < 1000 then "0" ++ toString n
  else toString n

/-- The toISOString date prefix for a day number. -/
def isoOfEpochDay (n : Nat) : String :=
  let c := civilOfDays n
  pad4 c.1 ++ "-" ++ pad2 c.2.1 ++ "-" ++ pad2 c.2.2

/-- The short weekday name (day 0, 1970-01-01, was a Thursday). -/
def weekdayShort (n : Nat) : String :=
  ["Thu", "Fri", "Sat", "Sun", "Mon", "Tue", "Wed"].getD (n % 7) ""

structure TrendEntry where
  date : String
  amount : Q
  day : String
deriving DecidableEq, Repr

/-- The running sum of a reduce over amounts. -/
def sumAmounts (ts : List Transaction) : Q :=
  ts.foldl (fun sum t => sum + t.amount) 0

/-- getLast7DaysTrend: for i = 6 down to 0, the calendar day i days before
today, with the summed amount of the transactions dated that day.  Time is
the explicit day number todayED. -/
def getLast7DaysTrend (todayED : Nat) (ts : List Transaction) : List TrendEntry :=
  (List.range 7).map fun k =>
    let i := 6 - k
    let dateStr := isoOfEpochDay (todayED - i)
    { date := dateStr
      amount := sumAmounts (ts.filter fun t => t.date == dateStr)
      day := weekdayShort (todayED - i) }

structure BudgetStatus where
  used : Q
  total : Q
  percentage : Q
  isOverBudget : Bool
  remaining : Q
  overspent : Q
deriving DecidableEq, Repr

structure Stats where
  total : Nat
  totalAmount : Q
  topCategory : String
  last7Days : List TrendEntry
  budget : BudgetStatus
deriving DecidableEq, Repr

/-- The categoryCount object built by getStats: an insertion-ordered map
from category to occurrence count, as JavaScript string-keyed objects
enumerate in insertion order. -/
def bumpCount : List (String × Nat) → String → List (String × Nat)
  | [], c => [(c, 1)]
  | (k, n) :: t, c => if k = c then (k, n + 1) :: t else (k, n) :: bumpCount t c

/-- The or-else on the budget setting: zero (falsy) falls back to 500. -/
def jsOrQ (q fb : Q) : Q := if q = 0 then fb else q

/-- getStats: totals, the most frequent category with the first-encountered
tie-break, the 7-day trend, and the budget block. -/
def getStats (todayED : Nat) (st : AppState) : Stats :=
  let total := st.transactions.length
  let totalAmount := sumAmounts st.transactions
  let categoryCount := st.transactions.foldl (fun acc t => bumpCount acc t.category) []
  let topCategory :=
    (categoryCount.foldl (fun best e => if e.2 > best.2 then e else best) ("-", 0)).1
  let last7Days := getLast7DaysTrend todayED st.transactions
  let budgetUsed := totalAmount
  let budgetTotal := jsOrQ st.settings.monthlyBudget 500
  let budgetPercentage := min ((budgetUsed / budgetTotal) * 100) 100
  { total := total
    totalAmount := totalAmount
    topCategory := topCategory
    last7Days := last7Days
    budget :=
      { used := budgetUsed
        total := budgetTotal
        percentage := budgetPercentage
        isOverBudget := decide (budgetUsed > budgetTotal)
        remaining := max (budgetTotal - budgetUsed) 0
        overspent := max (budgetUsed - budgetTotal) 0 } }

/-! ### Structural lemmas about view recomputation -/

/-- The identity of a stored matcher, forgetting only the scan position. -/
def regexShape : SearchRegex → SearchRegex
  | SearchRegex.re r => SearchRegex.re { r with lastIndex := 0 }
  | x => x

theorem gtest_shape (r : GRegex) (s : String) :
    (gtest r s).2.literal = r.literal ∧ (gtest r s).2.ignoreCase = r.ignoreCase := by
  simp only [gtest]
  split <;> exact ⟨rfl, rfl⟩

theorem jsFilterTest_shape (ts : List Transaction) (r : GRegex) :
    (jsFilterTest r ts).2.literal = r.literal ∧
    (jsFilterTest r ts).2.ignoreCase = r.ignoreCase := by
  induction ts generalizing r with
  | nil => exact ⟨rfl, rfl⟩
  | cons t ts ih =>
      have h1 := gtest_shape r (searchable t)
      have h2 := ih (gtest r (searchable t)).2
      exact ⟨h2.1.trans h1.1, h2.2.trans h1.2⟩

@[simp] theorem applySearch_transactions (st : AppState) :
    (applySearch st).transactions = st.transactions := by
  unfold applySearch; split <;> rfl

@[simp] theorem applySearch_settings (st : AppState) :
    (applySearch st).settings = st.settings := by
  unfold applySearch; split <;> rfl

@[simp] theorem applySearch_currentSort (st : AppState) :
    (applySearch st).currentSort = st.currentSort := by
  unfold applySearch; split <;> rfl

@[simp] theorem applySearch_notifyCount (st : AppState) :
    (applySearch st).notifyCount = st.notifyCount := by
  unfold applySearch; split <;> rfl

@[simp] theorem applySearch_editingId (st : AppState) :
    (applySearch st).editingId = st.editingId := by
  unfold applySearch; split <;> rfl

@[simp] theorem applySearch_pattern (st : AppState) :
    (applySearch st).currentSearch.pattern = st.currentSearch.pattern := by
  unfold applySearch; split <;> rfl

@[simp] theorem applySearch_caseSensitive (st : AppState) :
    (applySearch st).currentSearch.caseSensitive = st.currentSearch.caseSensitive := by
  unfold applySearch; split <;> rfl

theorem applySearch_regexShape (st : AppState) :
    regexShape (applySearch st).currentSearch.regex =
    regexShape st.currentSearch.regex := by
  unfold applySearch
  split
  · rfl
  · rfl
  · rename_i r heq
    have h1 := jsFilterTest_shape st.transactions r
    simp only [regexShape, heq]
    rw [h1.1, h1.2]

@[simp] theorem applySort_transactions (st : AppState) :
    (applySort st).transactions = st.transactions := rfl

@[simp] theorem applySort_settings (st : AppState) :
    (applySort st).settings = st.settings := rfl

@[simp] theorem applySort_currentSearch (st : AppState) :
    (applySort st).currentSearch = st.currentSearch := rfl

@[simp] theorem applySort_currentSort (st : AppState) :
    (applySort st).currentSort = st.currentSort := rfl

@[simp] theorem applySort_notifyCount (st : AppState) :
    (applySort st).notifyCount = st.notifyCount := rfl

@[simp] theorem applySort_editingId (st : AppState) :
    (applySort st).editingId = st.editingId := rfl

@[simp] theorem aSAS_transactions (st : AppState) :
    (applySearchAndSort st).transactions = st.transactions := by
  unfold applySearchAndSort; rw [applySort_transactions, applySearch_transactions]

@[simp] theorem aSAS_settings (st : AppState) :
    (applySearchAndSort st).settings = st.settings := by
  unfold applySearchAndSort; rw [applySort_settings, applySearch_settings]

@[simp] theorem aSAS_currentSort (st : AppState) :
    (applySearchAndSort st).currentSort = st.currentSort := by
  unfold applySearchAndSort; rw [applySort_currentSort, applySearch_currentSort]

@[simp] theorem aSAS_notifyCount (st : AppState) :
    (applySearchAndSort st).notifyCount = st.notifyCount := by
  unfold applySearchAndSort; rw [applySort_notifyCount, applySearch_notifyCount]

@[simp] theorem aSAS_pattern (st : AppState) :
    (applySearchAndSort st).currentSearch.pattern = st.currentSearch.pattern := by
  unfold applySearchAndSort; rw [applySort_currentSearch, applySearch_pattern]

@[simp] theorem aSAS_caseSensitive (st : AppState) :
    (applySearchAndSort st).currentSearch.caseSensitive =
    st.currentSearch.caseSensitive := by
  unfold applySearchAndSort; rw [applySort_currentSearch, applySearch_caseSensitive]

theorem aSAS_regexShape (st : AppState) :
    regexShape (applySearchAndSort st).currentSearch.regex =
    regexShape st.currentSearch.regex := by
  unfold applySearchAndSort; rw [applySort_currentSearch]; exact applySearch_regexShape st

@[simp] theorem notify_transactions (st : AppState) :
    (notify st).transactions = st.transactions := rfl

@[simp] theorem notify_settings (st : AppState) :
    (notify st).settings = st.settings := rfl

@[simp] theorem notify_currentSearch (st : AppState) :
    (notify st).currentSearch = st.currentSearch := rfl

@[simp] theorem notify_currentSort (st : AppState) :
    (notify st).currentSort = st.currentSort := rfl

/-! ### Concrete fixtures used by closed theorems and witnesses -/

def txA : Transaction := ⟨"t1", "a", 5, "Food", "2025-01-01", "ts", "ts"⟩

def txB : Transaction := ⟨"t2", "a", 5, "Food", "2025-01-01", "ts", "ts"⟩

/-- A store holding two transactions whose searchable strings both match the
one-character pattern a. -/
def twoMatchState : AppState :=
  ⟨[txA, txB], defaultSettings, [txA, txB],
   ⟨"", SearchRegex.null, false⟩, "date-desc", none, 0⟩

def today0 : Nat × Nat × Nat := (2026, 1, 1)

set_option maxRecDepth 8000

/-! ### C1, C2, C5 -/

/-- C1: the spec requires the derived view after setSearch to contain exactly
the transactions whose searchable string matches the pattern, with no leakage
of the matcher scan position between the per-transaction tests.  The code
compiles every search with the global flag and reuses the single matcher
across the filter callbacks, so its lastIndex survives from one test to the
next: with pattern a, both stored searchable strings match a fresh matcher,
yet the view produced by setSearch keeps only the first transaction. -/
theorem c1_global_flag_drops_matching_transaction :
    (gtest ⟨"a", false, 0⟩ (searchable txA)).1 = true ∧
    (gtest ⟨"a", false, 0⟩ (searchable txB)).1 = true ∧
    (setSearch "a" true twoMatchState).filteredTransactions = [txA] ∧
    txB ∉ (setSearch "a" true twoMatchState).filteredTransactions := by
  refine ⟨?_, ?_, ?_, ?_⟩ <;> with_unfolding_all decide

/-- C2: a pattern that fails to compile is stored as an error marker (never a
matcher) without any fault, and the derived view is the unfiltered canonical
list sorted by the active sort state. -/
theorem c2_malformed_pattern_falls_back (pattern : String) (caseSensitive : Bool)
    (st : AppState) (hne : pattern ≠ "") (hbad : patternValid pattern = false) :
    (setSearch pattern caseSensitive st).currentSearch.regex =
      SearchRegex.err "Invalid regular expression" ∧
    (setSearch pattern caseSensitive st).filteredTransactions =
      jsSort (sortLe st.currentSort) st.transactions := by
  unfold setSearch
  simp only [if_neg hne, hbad, Bool.false_eq_true, if_false]
  exact ⟨rfl, rfl⟩

/-- Witness for C2 at the unterminated-group pattern. -/
theorem c2_malformed_pattern_falls_back_witness :
    (setSearch "(" false twoMatchState).currentSearch.regex =
      SearchRegex.err "Invalid regular expression" ∧
    (setSearch "(" false twoMatchState).filteredTransactions =
      jsSort (sortLe twoMatchState.currentSort) twoMatchState.transactions :=
  c2_malformed_pattern_falls_back "(" false twoMatchState (by decide) (by decide)

/-- C5: the claim says every setSearch and setSort call notifies all
subscribers after recomputing the view.  Neither method calls notify, so no
listener is ever invoked by them: the notification count is unchanged for
every state, pattern and sort key. -/
theorem c5_search_and_sort_never_notify (st : AppState) (pattern sortBy : String)
    (caseSensitive : Bool) :
    (setSearch pattern caseSensitive st).notifyCount = st.notifyCount ∧
    (setSort sortBy st).notifyCount = st.notifyCount := by
  constructor
  · unfold setSearch
    rw [aSAS_notifyCount]
  · unfold setSort
    rw [aSAS_notifyCount]

/-! ### Lemmas about the cleaned record -/

theorem descPattern_ne_nil (s : String) (h : descPattern s = true) : s.data ≠ [] := by
  intro hd
  unfold descPattern at h
  rw [hd] at h
  exact Bool.noConfusion h

theorem collapseGo_cons_ne (c : Char) (t : List Char) : collapseGo (c :: t) false ≠ [] := by
  unfold collapseGo
  split <;> simp

theorem collapseWs_ne_empty (s : String) (h : s.data ≠ []) : collapseWs s ≠ "" := by
  unfold collapseWs
  cases hd : s.data with
  | nil => exact absurd hd h
  | cons c t =>
      intro he
      exact collapseGo_cons_ne c t (by simpa using congrArg String.data he)

theorem catPattern_ne_nil (s : String) (h : catPattern s = true) : s.data ≠ [] := by
  intro hd
  unfold catPattern catScan at h
  rw [hd] at h
  exact Bool.noConfusion h

theorem capJs_ne_empty (s : String) (h : s.data ≠ []) : capJs s ≠ "" := by
  unfold capJs
  cases hd : s.data with
  | nil => exact absurd hd h
  | cons c t =>
      intro he
      simpa using congrArg String.data he

theorem jsOrNum_self (v : Option Q) : jsOrNum v v = v := by
  cases v <;> simp [jsOrNum]

theorem validateAmount_value_or (s : String) :
    jsOrNum (validateAmount s).value (parseFloat s) = parseFloat s := by
  unfold validateAmount
  by_cases h1 : amountPattern s
  · by_cases h2 : jsGtNum (parseFloat s) 1000000
    · simp [h1, h2, jsOrNum]
    · simp [h1, h2, jsOrNum_self]
  · simp [h1, jsOrNum]

/-- The cleaned amount is always the parseFloat of the raw input, valid or
not (on the valid path the validator value is that same number, and a zero
value falls through the or-else to the same parseFloat). -/
theorem validateTransaction_cleanedAmount (today : Nat × Nat × Nat) (fd : FormData) :
    (validateTransaction today fd).cleanedAmount = JsVal.num (parseFloat fd.amount) := by
  show JsVal.num (jsOrNum (validateAmount fd.amount).value (parseFloat fd.amount)) = _
  rw [validateAmount_value_or]

theorem validateDescription_cleaned_or (s : String) :
    jsOrStr (validateDescription s).cleaned s =
      (if (validateDescription s).valid = true then collapseWs s else s) := by
  unfold validateDescription
  by_cases h1 : descPattern s
  · by_cases h2 : hasDoubleSpaces s
    · simp [h1, h2, jsOrStr]
    · have hne : collapseWs s ≠ "" := collapseWs_ne_empty s (descPattern_ne_nil s h1)
      simp [h1, h2, jsOrStr, hne]
  · simp [h1, jsOrStr]

theorem validateTransaction_cleanedDescription (today : Nat × Nat × Nat) (fd : FormData) :
    (validateTransaction today fd).cleanedDescription =
      (if (validateDescription fd.description).valid = true then
        collapseWs fd.description else fd.description) := by
  show jsOrStr (validateDescription fd.description).cleaned fd.description = _
  exact validateDescription_cleaned_or fd.description

theorem validateCategory_cleaned_or (s : String) :
    jsOrStr (validateCategory s).cleaned s =
      (if (validateCategory s).valid = true then capJs s else s) := by
  unfold validateCategory
  by_cases h1 : catPattern s
  · by_cases h2 : s.length < 2
    · simp [h1, h2, jsOrStr]
    · have hne : capJs s ≠ "" := capJs_ne_empty s (catPattern_ne_nil s h1)
      simp [h1, h2, jsOrStr, hne]
  · simp [h1, jsOrStr]

theorem validateTransaction_cleanedCategory (today : Nat × Nat × Nat) (fd : FormData) :
    (validateTransaction today fd).cleanedCategory =
      (if (validateCategory fd.category).valid = true then
        capJs fd.category else fd.category) := by
  show jsOrStr (validateCategory fd.category).cleaned fd.category = _
  exact validateCategory_cleaned_or fd.category

/-! ### C9 -/

/-- C9 counterexample: for the form data with amount abc (which fails
validation), the cleaned amount is the number NaN produced by parseFloat and
not the raw input string abc, so the cleaned record does not fall back to the
raw input value for the failed amount field. -/
theorem c9_failed_amount_is_not_raw_input :
    (validateTransaction today0 ⟨"Coffee", "abc", "Food", "2025-01-10"⟩).errAmount.isSome
      = true ∧
    (validateTransaction today0 ⟨"Coffee", "abc", "Food", "2025-01-10"⟩).cleanedAmount =
      JsVal.num none ∧
    JsVal.num none ≠
      JsVal.str (FormData.mk "Coffee" "abc" "Food" "2025-01-10").amount := by
  refine ⟨?_, ?_, ?_⟩ <;> with_unfolding_all decide

/-- C9 amended: the cleaned record holds the collapsed description and the
capitalised category when those fields validate, falling back to the raw
input otherwise; the cleaned amount is always the numeric parseFloat of the
raw input (NaN when unparseable), never the raw string; the date is passed
through unchanged. -/
theorem c9_cleaned_record (today : Nat × Nat × Nat) (fd : FormData) :
    (validateTransaction today fd).cleanedDescription =
      (if (validateDescription fd.description).valid = true then
        collapseWs fd.description else fd.description) ∧
    (validateTransaction today fd).cleanedAmount = JsVal.num (parseFloat fd.amount) ∧
    (validateTransaction today fd).cleanedDate = fd.date ∧
    (validateTransaction today fd).cleanedCategory =
      (if (validateCategory fd.category).valid = true then
        capJs fd.category else fd.category) :=
  ⟨validateTransaction_cleanedDescription today fd,
   validateTransaction_cleanedAmount today fd, rfl,
   validateTransaction_cleanedCategory today fd⟩

/-! ### C3 -/

deriving instance DecidableEq for Except

def fdBadDesc : FormData := ⟨" x", "5", "Food", "2025-01-10"⟩

def fdBadAmount : FormData := ⟨"Lunch", "abc", "Food", "2025-01-10"⟩

def fdGood : FormData := ⟨"Lunch", "5", "Food", "2025-01-10"⟩

/-- C3 counterexample: two inputs failing on different fields (description
only, amount only) both make addTransaction raise the same generic error
value with the message Invalid transaction data, so the raised error cannot
carry the field-level error list the claim requires. -/
theorem c3_raised_error_carries_no_field_list :
    (validateTransaction today0 fdBadDesc).errDescription.isSome = true ∧
    (validateTransaction today0 fdBadDesc).errAmount = none ∧
    (validateTransaction today0 fdBadAmount).errDescription = none ∧
    (validateTransaction today0 fdBadAmount).errAmount.isSome = true ∧
    (addTransaction "id1" "ts" today0 fdBadDesc twoMatchState).2 =
      Except.error "Invalid transaction data" ∧
    (addTransaction "id1" "ts" today0 fdBadAmount twoMatchState).2 =
      Except.error "Invalid transaction data" := by
  refine ⟨?_, ?_, ?_, ?_, ?_, ?_⟩ <;> with_unfolding_all decide

/-- C3 amended: on any form data that fails validation, addTransaction and
updateTransaction raise a generic error with message Invalid transaction
data (carrying no field list) and leave the store exactly as it was; on a
valid form but an absent id, updateTransaction raises the error with message
Transaction not found, again with the state unchanged. -/
theorem c3_failed_calls_leave_state_unchanged (freshId now : String)
    (today : Nat × Nat × Nat) (id : String) (fd : FormData) (st : AppState) :
    ((validateTransaction today fd).isValid = false →
      addTransaction freshId now today fd st =
        (st, Except.error "Invalid transaction data") ∧
      updateTransaction now today id fd st =
        (st, Except.error "Invalid transaction data")) ∧
    ((validateTransaction today fd).isValid = true →
      findIndexJs id st.transactions = none →
      updateTransaction now today id fd st =
        (st, Except.error "Transaction not found")) := by
  constructor
  · intro hv
    constructor
    · unfold addTransaction
      simp [hv]
    · unfold updateTransaction
      simp [hv]
  · intro hv hidx
    unfold updateTransaction
    simp [hv, hidx]

/-- Witness for C3 at concrete inputs: an invalid description and an absent
update id. -/
theorem c3_failed_calls_leave_state_unchanged_witness :
    (addTransaction "id1" "ts" today0 fdBadDesc twoMatchState =
      (twoMatchState, Except.error "Invalid transaction data") ∧
     updateTransaction "ts" today0 "zz" fdBadDesc twoMatchState =
      (twoMatchState, Except.error "Invalid transaction data")) ∧
    updateTransaction "ts" today0 "zz" fdGood twoMatchState =
      (twoMatchState, Except.error "Transaction not found") :=
  ⟨(c3_failed_calls_leave_state_unchanged "id1" "ts" today0 "zz" fdBadDesc
      twoMatchState).1 (by with_unfolding_all decide),
   (c3_failed_calls_leave_state_unchanged "id1" "ts" today0 "zz" fdGood
      twoMatchState).2 (by with_unfolding_all decide) (by decide)⟩

/-! ### C4 -/

theorem amountPatternL_head (cs : List Char) (h : amountPatternL cs = true) :
    ∃ c t, cs = c :: t ∧ c.isDigit = true := by
  cases cs with
  | nil => exact absurd h (by decide)
  | cons c t =>
      by_cases hd : c.isDigit = true
      · exact ⟨c, t, rfl, hd⟩
      · exfalso
        unfold amountPatternL at h
        rw [List.takeWhile_cons, if_neg hd] at h
        simp [intPartOk] at h

theorem isDigit_not_space (c : Char) (h : c.isDigit = true) : jsIsSpace c = false := by
  unfold jsIsSpace
  by_contra hs
  simp only [Bool.not_eq_false, decide_eq_true_eq] at hs
  rcases hs with h1 | h1 | h1 | h1 | h1 | h1 <;> subst h1 <;> exact absurd h (by decide)

theorem isDigit_not_sign (c : Char) (h : c.isDigit = true) : ¬(c = '-' ∨ c = '+') := by
  rintro (rfl | rfl) <;> exact absurd h (by decide)

theorem parseFloat_isSome_of_amountPattern (s : String) (h : amountPattern s = true) :
    ∃ q : Q, parseFloat s = some q := by
  obtain ⟨c, t, hcs, hd⟩ := amountPatternL_head s.data h
  unfold parseFloat
  rw [hcs, List.dropWhile_cons, if_neg (by simp [isDigit_not_space c hd])]
  simp only [parseFloatL]
  rw [if_neg (isDigit_not_sign c hd)]
  rw [List.takeWhile_cons, if_pos hd]
  rw [if_neg (by simp)]
  exact ⟨_, rfl⟩

theorem validateAmount_valid_pattern (s : String)
    (h : (validateAmount s).valid = true) : amountPattern s = true := by
  by_contra hp
  simp only [Bool.not_eq_true] at hp
  simp [validateAmount, hp] at h

theorem validateTransaction_valid_amount (today : Nat × Nat × Nat) (fd : FormData)
    (h : (validateTransaction today fd).isValid = true) :
    amountPattern fd.amount = true := by
  have h2 : ((validateDescription fd.description).valid &&
      (validateAmount fd.amount).valid && (validateDate today fd.date).valid &&
      (validateCategory fd.category).valid) = true := h
  simp only [Bool.and_eq_true] at h2
  exact validateAmount_valid_pattern fd.amount h2.1.1.2

/-- C4: for valid form data, addTransaction returns a record carrying the
cleaned field values, the supplied fresh id (absent from the list when the
id generator honours its uniqueness contract), equal creation and update
timestamps; the record is prepended to the canonical list and getTransaction
finds it. -/
theorem c4_add_then_get (freshId now : String) (today : Nat × Nat × Nat)
    (fd : FormData) (st : AppState)
    (hv : (validateTransaction today fd).isValid = true)
    (hfresh : freshId ∉ st.transactions.map (fun t => t.id)) :
    ∃ tx : Transaction,
      (addTransaction freshId now today fd st).2 = Except.ok tx ∧
      tx.id = freshId ∧
      tx.id ∉ st.transactions.map (fun t => t.id) ∧
      tx.description = (validateTransaction today fd).cleanedDescription ∧
      (validateTransaction today fd).cleanedAmount = JsVal.num (some tx.amount) ∧
      tx.category = (validateTransaction today fd).cleanedCategory ∧
      tx.date = (validateTransaction today fd).cleanedDate ∧
      tx.createdAt = now ∧ tx.updatedAt = now ∧
      (addTransaction freshId now today fd st).1.transactions = tx :: st.transactions ∧
      getTransaction tx.id (addTransaction freshId now today fd st).1 = some tx := by
  obtain ⟨q, hq⟩ := parseFloat_isSome_of_amountPattern fd.amount
    (validateTransaction_valid_amount today fd hv)
  refine ⟨⟨freshId, (validateTransaction today fd).cleanedDescription,
      jsNumOf (validateTransaction today fd).cleanedAmount,
      (validateTransaction today fd).cleanedCategory,
      (validateTransaction today fd).cleanedDate, now, now⟩,
    ?_, rfl, hfresh, rfl, ?_, rfl, rfl, rfl, rfl, ?_, ?_⟩
  · unfold addTransaction
    simp [hv]
  · rw [validateTransaction_cleanedAmount, hq]
    rfl
  · unfold addTransaction
    simp [hv]
  · unfold getTransaction addTransaction
    simp [hv]

/-- Witness for C4: a valid form added to the two-transaction store. -/
theorem c4_add_then_get_witness :
    ∃ tx : Transaction,
      (addTransaction "n1" "now" today0 fdGood twoMatchState).2 = Except.ok tx ∧
      tx.id = "n1" ∧
      tx.id ∉ twoMatchState.transactions.map (fun t => t.id) ∧
      tx.description = (validateTransaction today0 fdGood).cleanedDescription ∧
      (validateTransaction today0 fdGood).cleanedAmount = JsVal.num (some tx.amount) ∧
      tx.category = (validateTransaction today0 fdGood).cleanedCategory ∧
      tx.date = (validateTransaction today0 fdGood).cleanedDate ∧
      tx.createdAt = "now" ∧ tx.updatedAt = "now" ∧
      (addTransaction "n1" "now" today0 fdGood twoMatchState).1.transactions =
        tx :: twoMatchState.transactions ∧
      getTransaction tx.id (addTransaction "n1" "now" today0 fdGood twoMatchState).1 =
        some tx :=
  c4_add_then_get "n1" "now" today0 fdGood twoMatchState
    (by with_unfolding_all decide) (by decide)

/-! ### C6 -/

theorem filter_bne_length (id : String) (l : List Transaction) :
    (l.filter (fun t => t.id != id)).length +
      l.countP (fun t => t.id == id) = l.length := by
  induction l with
  | nil => simp
  | cons t l ih =>
      cases h : t.id == id with
      | true =>
          have hb : (t.id != id) = false := by simp [bne, h]
          simp [List.filter_cons, List.countP_cons, hb, h]
          omega
      | false =>
          have hb : (t.id != id) = true := by simp [bne, h]
          simp [List.filter_cons, List.countP_cons, hb, h]
          omega

/-- C6: with the id present exactly once (the id-uniqueness invariant), a
confirmed deleteTransaction removes it: the record is no longer found and the
count drops by exactly one; a declined confirmation returns false and leaves
the state untouched. -/
theorem c6_delete_confirmed_removes (id : String) (st : AppState)
    (hcount : st.transactions.countP (fun t => t.id == id) = 1) :
    deleteTransaction false id st = (st, false) ∧
    (deleteTransaction true id st).2 = true ∧
    getTransaction id (deleteTransaction true id st).1 = none ∧
    (deleteTransaction true id st).1.transactions.length + 1 =
      st.transactions.length := by
  have htr : (deleteTransaction true id st).1.transactions =
      st.transactions.filter (fun t => t.id != id) := by
    unfold deleteTransaction
    simp
  refine ⟨rfl, rfl, ?_, ?_⟩
  · unfold getTransaction
    rw [htr]
    apply List.find?_eq_none.mpr
    intro a ha
    have hmem := List.mem_filter.mp ha
    simpa [bne] using hmem.2
  · rw [htr]
    have := filter_bne_length id st.transactions
    omega

/-- Witness for C6 at the two-transaction store. -/
theorem c6_delete_confirmed_removes_witness :
    deleteTransaction false "t1" twoMatchState = (twoMatchState, false) ∧
    (deleteTransaction true "t1" twoMatchState).2 = true ∧
    getTransaction "t1" (deleteTransaction true "t1" twoMatchState).1 = none ∧
    (deleteTransaction true "t1" twoMatchState).1.transactions.length + 1 =
      twoMatchState.transactions.length :=
  c6_delete_confirmed_removes "t1" twoMatchState (by decide)

/-! ### C7 -/

theorem findIndexJs_some (id : String) (l : List Transaction) (i : Nat)
    (h : findIndexJs id l = some i) :
    ∃ t, l[i]? = some t ∧ (t.id == id) = true ∧ l.getD i defaultTx = t := by
  induction l generalizing i with
  | nil => simp [findIndexJs] at h
  | cons a l ih =>
      unfold findIndexJs at h
      by_cases ha : (a.id == id) = true
      · rw [if_pos ha] at h
        cases h
        exact ⟨a, by simp, ha, rfl⟩
      · rw [if_neg ha] at h
        cases hfi : findIndexJs id l with
        | none => rw [hfi] at h; exact Option.noConfusion h
        | some j =>
            rw [hfi] at h
            have h : j + 1 = i := Option.some.inj h
            cases h
            obtain ⟨t, h1, h2, h3⟩ := ih j hfi
            refine ⟨t, by simpa using h1, h2, ?_⟩
            simpa [List.getD] using h3

/-- C7: a successful updateTransaction replaces exactly the record at the
found index, keeping its id and createdAt and stamping updatedAt with the
new timestamp; every other list position, the settings, the sort key, the
search pattern and flag, and the matcher identity (up to its internal scan
position, which the recomputation may advance) are unchanged. -/
theorem c7_update_frame (now : String) (today : Nat × Nat × Nat) (id : String)
    (fd : FormData) (st : AppState) (i : Nat)
    (hv : (validateTransaction today fd).isValid = true)
    (hidx : findIndexJs id st.transactions = some i) :
    ∃ upd : Transaction,
      (updateTransaction now today id fd st).2 = Except.ok upd ∧
      upd.id = id ∧
      upd.id = (st.transactions.getD i defaultTx).id ∧
      upd.createdAt = (st.transactions.getD i defaultTx).createdAt ∧
      upd.updatedAt = now ∧
      (updateTransaction now today id fd st).1.transactions =
        st.transactions.set i upd ∧
      (∀ j, j ≠ i →
        (updateTransaction now today id fd st).1.transactions[j]? =
          st.transactions[j]?) ∧
      (updateTransaction now today id fd st).1.settings = st.settings ∧
      (updateTransaction now today id fd st).1.currentSort = st.currentSort ∧
      (updateTransaction now today id fd st).1.currentSearch.pattern =
        st.currentSearch.pattern ∧
      (updateTransaction now today id fd st).1.currentSearch.caseSensitive =
        st.currentSearch.caseSensitive ∧
      regexShape (updateTransaction now today id fd st).1.currentSearch.regex =
        regexShape st.currentSearch.regex := by
  obtain ⟨told, hget, hid, hgetD⟩ := findIndexJs_some id st.transactions i hidx
  have hideq : told.id = id := by simpa using hid
  have htr : (updateTransaction now today id fd st).1.transactions =
      st.transactions.set i
        { st.transactions.getD i defaultTx with
          description := (validateTransaction today fd).cleanedDescription
          amount := jsNumOf (validateTransaction today fd).cleanedAmount
          category := (validateTransaction today fd).cleanedCategory
          date := (validateTransaction today fd).cleanedDate
          updatedAt := now } := by
    unfold updateTransaction
    simp [hv, hidx]
  refine ⟨{ st.transactions.getD i defaultTx with
      description := (validateTransaction today fd).cleanedDescription
      amount := jsNumOf (validateTransaction today fd).cleanedAmount
      category := (validateTransaction today fd).cleanedCategory
      date := (validateTransaction today fd).cleanedDate
      updatedAt := now },
    ?_, ?_, rfl, rfl, rfl, htr, ?_, ?_, ?_, ?_, ?_, ?_⟩
  · unfold updateTransaction
    simp [hv, hidx]
  · rw [hgetD]
    exact hideq
  · intro j hj
    rw [htr]
    exact List.getElem?_set_ne (fun he => hj he.symm)
  · unfold updateTransaction
    simp [hv, hidx]
  · unfold updateTransaction
    simp [hv, hidx]
  · unfold updateTransaction
    simp [hv, hidx]
  · unfold updateTransaction
    simp [hv, hidx]
  · unfold updateTransaction
    simp only [hv, Bool.not_true, Bool.false_eq_true, if_false, hidx]
    rw [notify_currentSearch]
    exact aSAS_regexShape _

/-- Witness for C7: updating the second record of the two-transaction store. -/
theorem c7_update_frame_witness :
    ∃ upd : Transaction,
      (updateTransaction "now2" today0 "t2" fdGood twoMatchState).2 = Except.ok upd ∧
      upd.id = "t2" ∧
      upd.id = (twoMatchState.transactions.getD 1 defaultTx).id ∧
      upd.createdAt = (twoMatchState.transactions.getD 1 defaultTx).createdAt ∧
      upd.updatedAt = "now2" ∧
      (updateTransaction "now2" today0 "t2" fdGood twoMatchState).1.transactions =
        twoMatchState.transactions.set 1 upd ∧
      (∀ j, j ≠ 1 →
        (updateTransaction "now2" today0 "t2" fdGood twoMatchState).1.transactions[j]? =
          twoMatchState.transactions[j]?) ∧
      (updateTransaction "now2" today0 "t2" fdGood twoMatchState).1.settings =
        twoMatchState.settings ∧
      (updateTransaction "now2" today0 "t2" fdGood twoMatchState).1.currentSort =
        twoMatchState.currentSort ∧
      (updateTransaction "now2" today0 "t2" fdGood twoMatchState).1.currentSearch.pattern =
        twoMatchState.currentSearch.pattern ∧
      (updateTransaction "now2" today0 "t2" fdGood twoMatchState).1.currentSearch.caseSensitive =
        twoMatchState.currentSearch.caseSensitive ∧
      regexShape (updateTransaction "now2" today0 "t2" fdGood twoMatchState).1.currentSearch.regex =
        regexShape twoMatchState.currentSearch.regex :=
  c7_update_frame "now2" today0 "t2" fdGood twoMatchState 1
    (by with_unfolding_all decide) (by decide)

/-! ### C8 -/

theorem mem_insertLe (le : Transaction → Transaction → Bool) (x a : Transaction)
    (l : List Transaction) : a ∈ insertLe le x l ↔ a = x ∨ a ∈ l := by
  induction l with
  | nil => simp [insertLe]
  | cons y t ih =>
      unfold insertLe
      by_cases h : le x y = true
      · rw [if_pos h]
        simp
      · rw [if_neg h]
        simp only [List.mem_cons, ih]
        tauto

theorem pairwise_insertLe (le : Transaction → Transaction → Bool) (x : Transaction) :
    ∀ l : List Transaction,
    l.Pairwise (fun a b => le a b = true) →
    (∀ b ∈ l, le x b = true ∨ le b x = true) →
    (∀ b ∈ l, ∀ c ∈ l, le x b = true → le b c = true → le x c = true) →
    (insertLe le x l).Pairwise (fun a b => le a b = true) := by
  intro l
  induction l with
  | nil =>
      intro _ _ _
      simp [insertLe]
  | cons y t ih =>
      intro hl htot htrans
      have hl' := List.pairwise_cons.mp hl
      unfold insertLe
      by_cases hxy : le x y = true
      · rw [if_pos hxy]
        refine List.Pairwise.cons ?_ hl
        intro b hb
        rcases List.mem_cons.mp hb with rfl | hbt
        · exact hxy
        · exact htrans y (by simp) b (by simp [hbt]) hxy (hl'.1 b hbt)
      · rw [if_neg hxy]
        refine List.Pairwise.cons ?_
          (ih hl'.2 (fun b hb => htot b (by simp [hb]))
            (fun b hb c hc => htrans b (by simp [hb]) c (by simp [hc])))
        intro b hb
        rcases (mem_insertLe le x b t).mp hb with rfl | hbt
        · rcases htot y (by simp) with h | h
          · exact absurd h hxy
          · exact h
        · exact hl'.1 b hbt

theorem mem_jsSort (le : Transaction → Transaction → Bool) (a : Transaction)
    (l : List Transaction) : a ∈ jsSort le l ↔ a ∈ l := by
  induction l with
  | nil => simp [jsSort]
  | cons x t ih =>
      unfold jsSort
      rw [mem_insertLe, ih]
      simp

theorem pairwise_jsSort (le : Transaction → Transaction → Bool) (l : List Transaction)
    (htot : ∀ a ∈ l, ∀ b ∈ l, le a b = true ∨ le b a = true)
    (htrans : ∀ a ∈ l, ∀ b ∈ l, ∀ c ∈ l,
      le a b = true → le b c = true → le a c = true) :
    (jsSort le l).Pairwise (fun a b => le a b = true) := by
  induction l with
  | nil => simp [jsSort]
  | cons x t ih =>
      unfold jsSort
      refine pairwise_insertLe le x (jsSort le t)
        (ih (fun a ha b hb => htot a (by simp [ha]) b (by simp [hb]))
          (fun a ha b hb c hc =>
            htrans a (by simp [ha]) b (by simp [hb]) c (by simp [hc])))
        ?_ ?_
      · intro b hb
        exact htot x (by simp) b (by simp [(mem_jsSort le b t).mp hb])
      · intro b hb c hc
        exact htrans x (by simp) b (by simp [(mem_jsSort le b t).mp hb])
          c (by simp [(mem_jsSort le c t).mp hc])

theorem jsSort_const (le : Transaction → Transaction → Bool)
    (h : ∀ a b, le a b = true) : ∀ l : List Transaction, jsSort le l = l := by
  intro l
  induction l with
  | nil => rfl
  | cons x t ih =>
      unfold jsSort
      rw [ih]
      cases t with
      | nil => rfl
      | cons y t2 =>
          unfold insertLe
          rw [if_pos (h x y)]

theorem sortLe_amount_asc (a b : Transaction) :
    sortLe "amount-asc" a b = decide (a.amount ≤ b.amount) := by
  have hf : (splitDash "amount-asc").headD "" = "amount" := by decide
  have hd2 : (splitDash "amount-asc")[1]? = some "asc" := by decide
  simp only [sortLe, jsCompare, applyDir]
  rw [hf, hd2]
  rw [if_neg (by decide : ¬("amount" : String) = "date"), if_pos rfl, if_pos rfl]
  simp only [Option.getD_some]
  exact decide_eq_decide.mpr sub_nonpos

theorem sortLe_date_desc (a b : Transaction) (x y : Q)
    (ha : dateKey a.date = some x) (hb : dateKey b.date = some y) :
    sortLe "date-desc" a b = decide (y ≤ x) := by
  have hf : (splitDash "date-desc").headD "" = "date" := by decide
  have hd2 : (splitDash "date-desc")[1]? = some "desc" := by decide
  simp only [sortLe, jsCompare, applyDir]
  rw [hf, hd2, ha, hb]
  rw [if_pos rfl]
  rw [if_neg (by decide : ¬(some ("desc" : String)) = some "asc")]
  simp only [jsSubOpt, Option.map_some', Option.getD_some]
  exact decide_eq_decide.mpr (by constructor <;> intro h <;> linarith)

theorem sortLe_unknown (sortKey : String)
    (h1 : (splitDash sortKey).headD "" ≠ "date")
    (h2 : (splitDash sortKey).headD "" ≠ "amount")
    (h3 : (splitDash sortKey).headD "" ≠ "description")
    (a b : Transaction) : sortLe sortKey a b = true := by
  simp only [sortLe, jsCompare, applyDir]
  rw [if_neg h1, if_neg h2, if_neg h3]
  simp

set_option maxHeartbeats 2000000 in
/-- C8: after applySort, the sort key amount-asc yields a view that is
non-decreasing in amount; date-desc yields a view non-increasing in
chronological date order (over the valid ISO dates the comparator is defined
on); a sort key whose field component is none of date, amount or description
leaves the filtered list in its previous order (the comparator returns zero
and the stable sort never moves an element). -/
theorem c8_sort_invariants (st : AppState) :
    (st.currentSort = "amount-asc" →
      ((applySort st).filteredTransactions).Pairwise
        (fun a b => a.amount ≤ b.amount)) ∧
    (st.currentSort = "date-desc" →
      (∀ t ∈ st.filteredTransactions, (dateKey t.date).isSome = true) →
      ((applySort st).filteredTransactions).Pairwise
        (fun a b => (dateKey b.date).getD 0 ≤ (dateKey a.date).getD 0)) ∧
    ((splitDash st.currentSort).headD "" ≠ "date" →
     (splitDash st.currentSort).headD "" ≠ "amount" →
     (splitDash st.currentSort).headD "" ≠ "description" →
      (applySort st).filteredTransactions = st.filteredTransactions) := by
  refine ⟨?_, ?_, ?_⟩
  · intro hs
    show (jsSort (sortLe st.currentSort) st.filteredTransactions).Pairwise
      (fun a b => a.amount ≤ b.amount)
    rw [hs]
    have hp := pairwise_jsSort (sortLe "amount-asc") st.filteredTransactions
      (fun a _ b _ => by
        rw [sortLe_amount_asc, sortLe_amount_asc]
        rcases le_total a.amount b.amount with h | h
        · exact Or.inl (decide_eq_true h)
        · exact Or.inr (decide_eq_true h))
      (fun a _ b _ c _ hab hbc => by
        rw [sortLe_amount_asc] at hab hbc ⊢
        exact decide_eq_true
          (le_trans (of_decide_eq_true hab) (of_decide_eq_true hbc)))
    exact hp.imp fun hab => by
      rw [sortLe_amount_asc] at hab
      exact of_decide_eq_true hab
  · intro hs hvalid
    show (jsSort (sortLe st.currentSort) st.filteredTransactions).Pairwise
      (fun a b => (dateKey b.date).getD 0 ≤ (dateKey a.date).getD 0)
    rw [hs]
    have hkey : ∀ t ∈ st.filteredTransactions, ∃ x, dateKey t.date = some x :=
      fun t ht => Option.isSome_iff_exists.mp (hvalid t ht)
    have hp := pairwise_jsSort (sortLe "date-desc") st.filteredTransactions
      (fun a haM b hbM => by
        obtain ⟨x, hx⟩ := hkey a haM
        obtain ⟨y, hy⟩ := hkey b hbM
        rw [sortLe_date_desc a b x y hx hy, sortLe_date_desc b a y x hy hx]
        rcases le_total y x with h | h
        · exact Or.inl (decide_eq_true h)
        · exact Or.inr (decide_eq_true h))
      (fun a haM b hbM c hcM hab hbc => by
        obtain ⟨x, hx⟩ := hkey a haM
        obtain ⟨y, hy⟩ := hkey b hbM
        obtain ⟨z, hz⟩ := hkey c hcM
        rw [sortLe_date_desc a b x y hx hy] at hab
        rw [sortLe_date_desc b c y z hy hz] at hbc
        rw [sortLe_date_desc a c x z hx hz]
        exact decide_eq_true
          (le_trans (of_decide_eq_true hbc) (of_decide_eq_true hab)))
    refine List.Pairwise.imp_of_mem ?_ hp
    intro a b haM hbM hab
    obtain ⟨x, hx⟩ := hkey a ((mem_jsSort _ a _).mp haM)
    obtain ⟨y, hy⟩ := hkey b ((mem_jsSort _ b _).mp hbM)
    rw [sortLe_date_desc a b x y hx hy] at hab
    rw [hx, hy]
    simpa using of_decide_eq_true hab
  · intro h1 h2 h3
    show jsSort (sortLe st.currentSort) st.filteredTransactions =
      st.filteredTransactions
    exact jsSort_const _ (fun a b => sortLe_unknown st.currentSort h1 h2 h3 a b) _

def txP : Transaction := ⟨"p1", "Pen", 7, "Other", "2025-03-05", "ts", "ts"⟩

def txQ : Transaction := ⟨"p2", "Pad", 3, "Other", "2025-03-06", "ts", "ts"⟩

def stAmt : AppState :=
  ⟨[txP, txQ], defaultSettings, [txP, txQ],
   ⟨"", SearchRegex.null, false⟩, "amount-asc", none, 0⟩

def stDate : AppState :=
  ⟨[txP, txQ], defaultSettings, [txP, txQ],
   ⟨"", SearchRegex.null, false⟩, "date-desc", none, 0⟩

def stFoo : AppState :=
  ⟨[txP, txQ], defaultSettings, [txP, txQ],
   ⟨"", SearchRegex.null, false⟩, "foo-asc", none, 0⟩

/-- Witness for C8 at three concrete sort states. -/
theorem c8_sort_invariants_witness :
    ((applySort stAmt).filteredTransactions).Pairwise
      (fun a b => a.amount ≤ b.amount) ∧
    ((applySort stDate).filteredTransactions).Pairwise
      (fun a b => (dateKey b.date).getD 0 ≤ (dateKey a.date).getD 0) ∧
    (applySort stFoo).filteredTransactions = stFoo.filteredTransactions :=
  ⟨(c8_sort_invariants stAmt).1 rfl,
   (c8_sort_invariants stDate).2.1 rfl (by with_unfolding_all decide),
   (c8_sort_invariants stFoo).2.2 (by decide) (by decide) (by decide)⟩

/-! ### C10 -/

/-- C10: on an empty canonical list (and a nonnegative configured budget),
getStats reports zero totals, the placeholder top category, a seven-entry
trend of all-zero amounts, and a budget block with nothing used, zero
percentage, the over-budget flag off, and the whole budget total remaining. -/
theorem c10_empty_stats (todayED : Nat) (st : AppState)
    (hempty : st.transactions = [])
    (hbudget : 0 ≤ st.settings.monthlyBudget) :
    (getStats todayED st).total = 0 ∧
    (getStats todayED st).totalAmount = 0 ∧
    (getStats todayED st).topCategory = "-" ∧
    (getStats todayED st).last7Days.length = 7 ∧
    (∀ e ∈ (getStats todayED st).last7Days, e.amount = 0) ∧
    (getStats todayED st).budget.used = 0 ∧
    (getStats todayED st).budget.percentage = 0 ∧
    (getStats todayED st).budget.isOverBudget = false ∧
    (getStats todayED st).budget.remaining = (getStats todayED st).budget.total := by
  have hbt : 0 ≤ jsOrQ st.settings.monthlyBudget 500 := by
    unfold jsOrQ
    by_cases h : st.settings.monthlyBudget = 0
    · rw [if_pos h]
      norm_num
    · rw [if_neg h]
      exact hbudget
  have hsum : sumAmounts st.transactions = 0 := by rw [hempty]; rfl
  refine ⟨?_, hsum, ?_, ?_, ?_, hsum, ?_, ?_, ?_⟩
  · show st.transactions.length = 0
    rw [hempty]
    rfl
  · show (List.foldl (fun best e => if e.2 > best.2 then e else best) ("-", 0)
      (st.transactions.foldl (fun acc t => bumpCount acc t.category) [])).1 = "-"
    rw [hempty]
    rfl
  · show (getLast7DaysTrend todayED st.transactions).length = 7
    unfold getLast7DaysTrend
    simp
  · intro e he
    have he2 : e ∈ getLast7DaysTrend todayED st.transactions := he
    rw [hempty] at he2
    unfold getLast7DaysTrend at he2
    simp only [List.mem_map, List.mem_range] at he2
    obtain ⟨k, _, hk⟩ := he2
    rw [← hk]
    rfl
  · show min (sumAmounts st.transactions / jsOrQ st.settings.monthlyBudget 500 * 100)
      100 = 0
    rw [hsum]
    norm_num
  · show decide (sumAmounts st.transactions > jsOrQ st.settings.monthlyBudget 500)
      = false
    rw [hsum]
    simpa using hbt
  · show max (jsOrQ st.settings.monthlyBudget 500 - sumAmounts st.transactions) 0 =
      jsOrQ st.settings.monthlyBudget 500
    rw [hsum]
    rw [sub_zero]
    exact max_eq_left hbt

def emptyState : AppState :=
  ⟨[], defaultSettings, [], ⟨"", SearchRegex.null, false⟩, "date-desc", none, 0⟩

/-- Witness for C10 on the empty store with the default settings. -/
theorem c10_empty_stats_witness :
    (getStats 20000 emptyState).total = 0 ∧
    (getStats 20000 emptyState).totalAmount = 0 ∧
    (getStats 20000 emptyState).topCategory = "-" ∧
    (getStats 20000 emptyState).last7Days.length = 7 ∧
    (∀ e ∈ (getStats 20000 emptyState).last7Days, e.amount = 0) ∧
    (getStats 20000 emptyState).budget.used = 0 ∧
    (getStats 20000 emptyState).budget.percentage = 0 ∧
    (getStats 20000 emptyState).budget.isOverBudget = false ∧
    (getStats 20000 emptyState).budget.remaining = (getStats 20000 emptyState).budget.total :=
  c10_empty_stats 20000 emptyState rfl (by norm_num [emptyState, defaultSettings])
